import Mathlib

/-!
Verification development for the inference.sh Python SDK.

Each Python function named in the claims is shallowly embedded as an
executable Lean definition, translated from the source under `src/`:

* `src/inferencesh/kernel/schema.py`   — `generate_example_value`
* `src/inferencesh/kernel/utils.py`    — `aislast`
* `src/inferencesh/kernel/executor.py` — `setup_app_instance`,
  `load_and_setup_app`, `execute_app_run`, `validate_and_parse_input`,
  `run_app`
* `src/inferencesh/kernel/loader.py`   — `setup_app` (the copy loop)
* `src/inferencesh/models/base.py`     — `OrderedSchemaModel.model_json_schema`
* `src/inferencesh/models/file.py`     — `File` construction
* `src/inferencesh/models/metadata.py` — `Metadata.update`
* `src/inferencesh/agent.py`           — `Agent` chat-session state

Python values that flow through these functions (JSON payloads, dict
fields) are embedded as the inductive `JVal`; Python `None` and JSON
`null` are both `JVal.null` (they are the same object in the Python
runtime).  Python exceptions are embedded as `Except String`.
-/

/-- A Python/JSON value as handled by the SDK: `None`/`null`, booleans,
ints, floats (embedded as rationals: the code only ever manipulates
literal constants such as `0.0`), strings, lists and dicts (assoc lists
in insertion order, as Python dicts preserve insertion order). -/
inductive JVal : Type where
  | null
  | bool (b : Bool)
  | int (n : Int)
  | num (q : Rat)
  | str (s : String)
  | arr (elems : List JVal)
  | obj (fields : List (String × JVal))

-- Size measure on `JVal` used for termination of the schema recursion.
-- Dict entries each count at least one so that looking a value up in a
-- non-empty dict strictly decreases the measure.
mutual

def jsize : JVal → Nat
  | .null => 0
  | .bool _ => 0
  | .int _ => 0
  | .num _ => 0
  | .str _ => 0
  | .arr xs => 1 + jsizeList xs
  | .obj kvs => 1 + jsizeFields kvs

def jsizeList : List JVal → Nat
  | [] => 0
  | x :: xs => 1 + jsize x + jsizeList xs

def jsizeFields : List (String × JVal) → Nat
  | [] => 0
  | (_, v) :: kvs => 1 + jsize v + jsizeFields kvs

end

/-- Python `d.get(k)` on a dict: first binding for `k`, if any. -/
def jget (kvs : List (String × JVal)) (k : String) : Option JVal :=
  match kvs with
  | [] => none
  | (k', v) :: rest => if k' = k then some v else jget rest k

/-- Python `d.get(k, default)`. -/
def jgetD (kvs : List (String × JVal)) (k : String) (d : JVal) : JVal :=
  (jget kvs k).getD d

/-- Python truthiness of a value (`if x:`). -/
def truthy : JVal → Bool
  | .null => false
  | .bool b => b
  | .int n => decide (n ≠ 0)
  | .num q => decide (q ≠ 0)
  | .str s => decide (s ≠ "")
  | .arr xs => !xs.isEmpty
  | .obj kvs => !kvs.isEmpty

/-- Python `a or b`: `a` if truthy, else `b`. -/
def pyOr (a b : JVal) : JVal := if truthy a then a else b

/-- Whether an optional value (a `d.get` result, `Python None` when
absent) equals a given Python string, as in `type_ == "null"`. -/
def isStrVal (t : Option JVal) (s : String) : Bool :=
  match t with
  | some (.str s') => s' = s
  | _ => false

/-- `"default" in field_schema and field_schema["default"] is None`
(schema.py line 37). -/
def isNullDefault (kvs : List (String × JVal)) : Bool :=
  match jget kvs "default" with
  | some .null => true
  | _ => false

/-- The `for item in anyof` loop of schema.py lines 28-31: the first
item whose `"type"` entry is not the string `"null"` supplies the type
(`.ok (some t)`, with `t = none` when the winning item has no `"type"`
key, as Python then assigns `None`); `.ok none` when the loop finishes
without a break; `.error` when an item is not a dict (Python raises
`AttributeError` on `item.get`). -/
def anyOfFirstType : List JVal → Except String (Option (Option JVal))
  | [] => .ok none
  | item :: rest =>
    match item with
    | .obj ikvs =>
      if isStrVal (jget ikvs "type") "null" then anyOfFirstType rest
      else .ok (some (jget ikvs "type"))
    | _ => .error "AttributeError: 'get'"

/-- schema.py lines 24-31: the effective `type_` of a field schema,
`none` standing for Python `None`.  A present-but-falsy `anyOf` skips
the loop; a truthy non-list `anyOf` raises (iterating it either fails
or produces non-dict items whose `.get` fails). -/
def computeType (kvs : List (String × JVal)) : Except String (Option JVal) :=
  let anyof := jgetD kvs "anyOf" (.arr [])
  let type0 : Option JVal := some (jgetD kvs "type" (.str "string"))
  if truthy anyof then
    match anyof with
    | .arr items =>
      match anyOfFirstType items with
      | .error e => .error e
      | .ok none => .ok type0
      | .ok (some t) => .ok t
    | _ => .error "TypeError: not iterable"
  else .ok type0

theorem jget_jsize {kvs : List (String × JVal)} {k : String} {v : JVal}
    (h : jget kvs k = some v) : jsize v < jsizeFields kvs := by
  induction kvs with
  | nil => simp [jget] at h
  | cons p rest ih =>
    obtain ⟨k', v'⟩ := p
    rw [jget] at h
    by_cases hk : k' = k
    · simp [hk] at h
      subst h
      simp [jsizeFields]
      omega
    · simp [hk] at h
      have := ih h
      simp [jsizeFields]
      omega

theorem items_decreasing (kvs : List (String × JVal)) (type? : Option JVal)
    (hct : computeType kvs = .ok type?) (harr : isStrVal type? "array" = true) :
    jsize (jgetD kvs "items" (.obj [])) < jsize (.obj kvs) := by
  rcases hj : jget kvs "items" with _ | v
  · rcases kvs with _ | ⟨⟨k0, v0⟩, rest⟩
    · have hc : computeType [] = .ok (some (.str "string")) := rfl
      rw [hc] at hct
      injection hct with hct
      rw [← hct] at harr
      simp [isStrVal] at harr
    · simp only [jgetD, hj, Option.getD_none, jsize, jsizeFields]
      omega
  · have h1 := jget_jsize hj
    simp only [jgetD, hj, Option.getD_some, jsize]
    omega

theorem props_decreasing (kvs props : List (String × JVal))
    (hp : jgetD kvs "properties" (.obj []) = .obj props) :
    jsizeFields props < jsize (.obj kvs) := by
  rcases hj : jget kvs "properties" with _ | v
  · simp only [jgetD, hj, Option.getD_none] at hp
    injection hp with hp
    subst hp
    simp only [jsize, jsizeFields]
    omega
  · have h1 := jget_jsize hj
    simp only [jgetD, hj, Option.getD_some] at hp
    subst hp
    simp only [jsize] at h1 ⊢
    omega

-- schema.py lines 12-56, `generate_example_value`, together with the
-- dict comprehension of line 54 (`genFields`).  Errors model the Python
-- exceptions raised when the function is applied to non-dict data.
mutual

def generate_example_value (j : JVal) : Except String JVal :=
  match j with
  | .obj kvs =>
    match hct : computeType kvs with
    | .error e => .error e
    | .ok type? =>
      if isStrVal type? "null" then .ok .null
      else if isNullDefault kvs then .ok .null
      else if isStrVal type? "string" then
        .ok (pyOr (pyOr (jgetD kvs "example" .null) (jgetD kvs "default" .null)) (.str "example_string"))
      else if isStrVal type? "integer" then
        .ok (pyOr (pyOr (jgetD kvs "example" .null) (jgetD kvs "default" .null)) (.int 0))
      else if isStrVal type? "number" then
        .ok (pyOr (pyOr (jgetD kvs "example" .null) (jgetD kvs "default" .null)) (.num 0))
      else if isStrVal type? "boolean" then
        .ok (pyOr (pyOr (jgetD kvs "example" .null) (jgetD kvs "default" .null)) (.bool false))
      else if isStrVal type? "array" then
        (generate_example_value (jgetD kvs "items" (.obj []))).map (fun x => .arr [x])
      else if isStrVal type? "object" then
        match hp : jgetD kvs "properties" (.obj []) with
        | .obj props => (genFields props).map JVal.obj
        | _ => .error "AttributeError: 'items'"
      else .ok .null
  | _ => .error "AttributeError: 'get'"
termination_by jsize j
decreasing_by
  all_goals rename_i harr
  · exact items_decreasing _ _ hct harr
  · exact props_decreasing _ _ hp

def genFields : List (String × JVal) → Except String (List (String × JVal))
  | [] => .ok []
  | (k, v) :: rest =>
    match generate_example_value v with
    | .error e => .error e
    | .ok x =>
      match genFields rest with
      | .error e => .error e
      | .ok xs => .ok ((k, x) :: xs)
termination_by l => jsizeFields l
decreasing_by
  all_goals simp [jsizeFields]
  all_goals omega

end


/-- The priority rule asserted by the spec for a scalar schema node,
written from the spec's words (for comparison with the code's
`generate_example_value`): the node's explicit example if present, then
its explicit default, then the type-appropriate fallback. -/
def claimed_scalar_priority (kvs : List (String × JVal)) (fallback : JVal) : JVal :=
  match jget kvs "example" with
  | some v => v
  | none =>
    match jget kvs "default" with
    | some v => v
    | none => fallback

/-- C1 counterexample: on the node
`{"type": "integer", "example": 0, "default": 7}` the code returns the
default `7`, not the explicit example `0` demanded by the stated
priority order — the Python `or` chain skips the falsy example. -/
theorem C1_counterexample :
    generate_example_value
        (.obj [("type", .str "integer"), ("example", .int 0), ("default", .int 7)])
      = .ok (.int 7) ∧
    claimed_scalar_priority
        [("type", .str "integer"), ("example", .int 0), ("default", .int 7)] (.int 0)
      = .int 0 ∧
    JVal.int 7 ≠ JVal.int 0 := by
  refine ⟨?_, rfl, ?_⟩
  · simp [generate_example_value, computeType, jgetD, jget, truthy, isStrVal, isNullDefault, pyOr]
  · intro h
    injection h with h
    omega

/-- One-step unfolding of `generate_example_value` on a dict whose
effective type computed without error: the if-chain of schema.py
lines 33-56. -/
theorem gen_ok_unfold (kvs : List (String × JVal)) (type? : Option JVal)
    (hct : computeType kvs = .ok type?) :
    generate_example_value (.obj kvs) =
      (if isStrVal type? "null" then .ok .null
       else if isNullDefault kvs then .ok .null
       else if isStrVal type? "string" then
         .ok (pyOr (pyOr (jgetD kvs "example" .null) (jgetD kvs "default" .null)) (.str "example_string"))
       else if isStrVal type? "integer" then
         .ok (pyOr (pyOr (jgetD kvs "example" .null) (jgetD kvs "default" .null)) (.int 0))
       else if isStrVal type? "number" then
         .ok (pyOr (pyOr (jgetD kvs "example" .null) (jgetD kvs "default" .null)) (.num 0))
       else if isStrVal type? "boolean" then
         .ok (pyOr (pyOr (jgetD kvs "example" .null) (jgetD kvs "default" .null)) (.bool false))
       else if isStrVal type? "array" then
         (generate_example_value (jgetD kvs "items" (.obj []))).map (fun x => .arr [x])
       else if isStrVal type? "object" then
         (match hp : jgetD kvs "properties" (.obj []) with
          | .obj props => (genFields props).map JVal.obj
          | _ => .error "AttributeError: 'items'")
       else .ok .null) := by
  rw [generate_example_value]
  split
  · rename_i e heq
    rw [hct] at heq
    cases heq
  · rename_i t heq
    rw [hct] at heq
    injection heq with heq
    subst heq
    rfl

/-- C1 (amended): `generate_example_value` returns `null` for a node
whose effective type is the explicit null type, and `null` for a node
of any effective type that carries an explicitly null default (the
null default preempts even an explicit example); otherwise, for a node
whose effective type is scalar, the first *truthy* value among its
explicit example and explicit default (falsy examples/defaults such as
`0`, `0.0`, `false`, `""` are skipped by the Python `or` chain), else
the type-appropriate fallback constant (string → `"example_string"`,
integer → `0`, number → `0.0`, boolean → `false`); for an array node it
recurses into the `items` schema and wraps the result in a one-element
list; for an object node it recurses into each declared property; in
particular `{"type": "integer", "default": 5}` yields `5`,
`{"type": "array", "items": {"type": "string"}}` yields
`["example_string"]`, and `{"anyOf": [{"type": "null"},
{"type": "boolean"}]}` yields `false`. -/
theorem C1_generate_example_value_amended :
    (∀ (kvs : List (String × JVal)) (type? : Option JVal),
      computeType kvs = .ok type? → type? = some (.str "null") →
      generate_example_value (.obj kvs) = .ok .null) ∧
    (∀ (kvs : List (String × JVal)) (type? : Option JVal),
      computeType kvs = .ok type? → isNullDefault kvs = true →
      generate_example_value (.obj kvs) = .ok .null) ∧
    (∀ (kvs : List (String × JVal)) (type? : Option JVal) (tname : String) (fb : JVal),
      computeType kvs = .ok type? →
      type? = some (.str tname) →
      (tname, fb) ∈ [("string", JVal.str "example_string"), ("integer", JVal.int 0),
                     ("number", JVal.num 0), ("boolean", JVal.bool false)] →
      generate_example_value (.obj kvs) =
        .ok (if isNullDefault kvs then .null
             else if truthy (jgetD kvs "example" .null) then jgetD kvs "example" .null
             else if truthy (jgetD kvs "default" .null) then jgetD kvs "default" .null
             else fb)) ∧
    (∀ (kvs : List (String × JVal)) (type? : Option JVal),
      computeType kvs = .ok type? → type? = some (.str "array") →
      isNullDefault kvs = false →
      generate_example_value (.obj kvs) =
        (generate_example_value (jgetD kvs "items" (.obj []))).map (fun x => .arr [x])) ∧
    (∀ (kvs props : List (String × JVal)) (type? : Option JVal),
      computeType kvs = .ok type? → type? = some (.str "object") →
      isNullDefault kvs = false →
      jgetD kvs "properties" (.obj []) = .obj props →
      generate_example_value (.obj kvs) = (genFields props).map JVal.obj) ∧
    generate_example_value (.obj [("type", .str "integer"), ("default", .int 5)])
      = .ok (.int 5) ∧
    generate_example_value
        (.obj [("type", .str "array"), ("items", .obj [("type", .str "string")])])
      = .ok (.arr [.str "example_string"]) ∧
    generate_example_value
        (.obj [("anyOf", .arr [.obj [("type", .str "null")], .obj [("type", .str "boolean")]])])
      = .ok (.bool false) := by
  refine ⟨?_, ?_, ?_, ?_, ?_, ?_, ?_, ?_⟩
  · intro kvs type? hct ht
    subst ht
    rw [gen_ok_unfold kvs _ hct]
    simp [isStrVal]
  · intro kvs type? hct hnd
    rw [gen_ok_unfold kvs _ hct]
    by_cases h1 : isStrVal type? "null" <;> simp [h1, hnd]
  · intro kvs type? tname fb hct ht hmem
    subst ht
    rw [gen_ok_unfold kvs _ hct]
    fin_cases hmem <;>
      (simp only [isStrVal]
       norm_num
       by_cases hnd : isNullDefault kvs <;> simp only [hnd, if_true, if_false] <;>
       by_cases hex : truthy (jgetD kvs "example" .null) <;>
       by_cases hdf : truthy (jgetD kvs "default" .null) <;>
       simp [pyOr, hex, hdf])
  · intro kvs type? hct ht hnd
    subst ht
    rw [gen_ok_unfold kvs _ hct]
    simp [isStrVal, hnd]
  · intro kvs props type? hct ht hnd hp
    subst ht
    rw [gen_ok_unfold kvs _ hct]
    simp [isStrVal, hnd, hp]
    split
    · rename_i props' heq
      rw [hp] at heq
      injection heq with heq
      rw [heq]
    · rename_i hno
      exact absurd hp (hno props)
  · simp [generate_example_value, computeType, jgetD, jget, truthy, isStrVal, isNullDefault, pyOr]
  · simp [generate_example_value, computeType, jgetD, jget, truthy, isStrVal, isNullDefault, pyOr,
          Except.map]
  · simp [generate_example_value, computeType, anyOfFirstType, jgetD, jget, truthy, isStrVal,
          isNullDefault, pyOr]

/-- C1 witness: the amended theorem applied to the concrete nodes
`{"type": "integer", "default": 5}` and
`{"type": "array", "default": null}` (a null default on a non-scalar
node). -/
theorem C1_generate_example_value_witness :
    generate_example_value (.obj [("type", .str "integer"), ("default", .int 5)])
      = .ok (.int 5) ∧
    generate_example_value (.obj [("type", .str "array"), ("default", .null)])
      = .ok .null := by
  constructor
  · have h := C1_generate_example_value_amended.2.2.1
      [("type", .str "integer"), ("default", .int 5)]
      (some (.str "integer")) "integer" (.int 0) rfl rfl (by simp)
    simpa [isNullDefault, jget, jgetD, truthy] using h
  · exact C1_generate_example_value_amended.2.1
      [("type", .str "array"), ("default", .null)] (some (.str "array")) rfl rfl

/-- utils.py lines 6-43, `aislast`: pull the first element, then keep
one element buffered; each successful further pull emits the buffered
element with `False`, and exhaustion emits it with `True`.  A finite
async iterator is embedded as the list of its elements. -/
def aislast {α : Type} : List α → List (Bool × α)
  | [] => []
  | [x] => [(true, x)]
  | x :: y :: rest => (false, x) :: aislast (y :: rest)

/-- C4: `aislast` yields one `(is_last, item)` pair per input element in
input order, `is_last` being true exactly for the final element: the
output is the non-final elements paired with `false` followed by the
last element paired with `true`; the empty input yields nothing and
`[x, y, z]` yields `(false, x), (false, y), (true, z)`. -/
theorem C4_aislast {α : Type} :
    (∀ xs : List α,
      aislast xs =
        xs.dropLast.map (fun x => (false, x)) ++ (xs.getLast?.map (fun x => (true, x))).toList) ∧
    aislast ([] : List α) = [] ∧
    (∀ x y z : α, aislast [x, y, z] = [(false, x), (false, y), (true, z)]) := by
  refine ⟨?_, rfl, fun x y z => rfl⟩
  intro xs
  induction xs with
  | nil => rfl
  | cons x tail ih =>
    cases tail with
    | nil => rfl
    | cons y rest =>
      rw [aislast, ih]
      simp

/-- The embedded `AppSetup` pydantic class of an app: its default
constructor, JSON-string validator and keyword constructor
(executor.py lines 119-133 call these three entry points). -/
structure SetupClsT (σ : Type) where
  mkDefault : σ
  parseJson : String → Except String σ
  fromDict : List (String × JVal) → Except String σ

/-- The runtime type of the `setup_data` argument, matching the
`isinstance` dispatch of executor.py lines 121-133. -/
inductive SetupData (σ : Type) where
  | none
  | str (s : String)
  | dict (d : List (String × JVal))
  | inst (m : σ)
  | other

/-- How `app.setup` was invoked (executor.py lines 140-143): either the
positional pair `(setup_model, context.metadata)` or the single named
argument `metadata=context.metadata`. -/
inductive SetupCall (σ μ : Type) where
  | positional (setup_value : Option σ) (metadata : μ)
  | namedMetadataOnly (metadata : μ)

/-- The dynamic shape of the value returned by `app.run`
(executor.py lines 171-182): an async generator, some other async
iterable, or an awaitable of a single value.  Finite (async) iterables
are embedded as the lists of their elements. -/
inductive RunResult (ω : Type) where
  | asyncgen (outputs : List ω)
  | aiter (outputs : List ω)
  | awaited (output : ω)

/-- The embedded `AppInput` pydantic class (constructor entry points
used by executor.py lines 201-206 and 256). -/
structure InputClsT (ι : Type) where
  fromDict : List (String × JVal) → Except String ι
  parseJson : String → Except String ι
  mkDefault : Except String ι

/-- The runtime type of the `input_data` argument, matching the
`isinstance` dispatch of executor.py lines 201-208. -/
inductive InputData (ι : Type) where
  | dict (d : List (String × JVal))
  | str (s : String)
  | inst (i : ι)
  | other

/-- An app instance: the declared parameter count of its `setup`
operation (`len(inspect.signature(app.setup).parameters)`, `self`
excluded on a bound method), the effect of calling `setup`, and the
effect of calling `run`. -/
structure PyApp (σ ι ω μ : Type) where
  setupParamCount : Nat
  setupImpl : SetupCall σ μ → Except String Unit
  runImpl : ι → μ → Except String (RunResult ω)

/-- executor.py lines 22-42, `AppContext`. -/
structure AppContext (σ ι ω μ : Type) where
  app : PyApp σ ι ω μ
  setup_complete : Bool
  AppInput : InputClsT ι
  AppSetup : Option (SetupClsT σ)
  metadata : μ

/-- A loaded app module: `module.App()`, `module.AppInput`, and the
optional `module.AppSetup`. -/
structure AppModule (σ ι ω μ : Type) where
  mkApp : PyApp σ ι ω μ
  AppInput : InputClsT ι
  AppSetup : Option (SetupClsT σ)

/-- executor.py lines 117-133: coercion of `setup_data` into the app's
setup model (`None` when the app declares no `AppSetup`). -/
def coerce_setup_data {σ : Type} (AppSetup : Option (SetupClsT σ)) (sd : SetupData σ) :
    Except String (Option σ) :=
  match AppSetup with
  | none => .ok none
  | some SetupCls =>
    match sd with
    | .none => .ok (some SetupCls.mkDefault)
    | .str s =>
      match SetupCls.parseJson s with
      | .ok m => .ok (some m)
      | .error e => .error ("Invalid setup data: " ++ e)
    | .dict d =>
      match SetupCls.fromDict d with
      | .ok m => .ok (some m)
      | .error e => .error e
    | .inst m => .ok (some m)
    | .other => .error "Invalid setup type"

/-- executor.py lines 100-143, `setup_app_instance`: coerce the setup
data, then dispatch on the declared parameter count of `app.setup`
(lines 140-143).  The returned `SetupCall` records how setup was
invoked; a failure of the app's own setup body propagates. -/
def setup_app_instance {σ ι ω μ : Type} (context : AppContext σ ι ω μ) (setup_data : SetupData σ) :
    Except String (SetupCall σ μ) :=
  match coerce_setup_data context.AppSetup setup_data with
  | .error e => .error e
  | .ok setup_model =>
    let call : SetupCall σ μ :=
      if context.app.setupParamCount ≥ 2 then .positional setup_model context.metadata
      else .namedMetadataOnly context.metadata
    match context.app.setupImpl call with
    | .error e => .error e
    | .ok _ => .ok call

/-- executor.py lines 45-98, `load_and_setup_app`: bind the module's
classes onto a fresh context, run setup, then set `setup_complete`.
The import-path and working-directory side effects (lines 72-82) have
no observable effect on the returned context and are not modelled. -/
def load_and_setup_app {σ ι ω μ : Type} (module : AppModule σ ι ω μ) (metadata : μ)
    (setup_data : SetupData σ) : Except String (AppContext σ ι ω μ × SetupCall σ μ) :=
  let context : AppContext σ ι ω μ :=
    { app := module.mkApp, setup_complete := false, AppInput := module.AppInput,
      AppSetup := module.AppSetup, metadata := metadata }
  match setup_app_instance context setup_data with
  | .error e => .error e
  | .ok call => .ok ({ context with setup_complete := true }, call)

/-- executor.py lines 185-208, `validate_and_parse_input`. -/
def validate_and_parse_input {ι : Type} (InputCls : InputClsT ι) (input_data : InputData ι) :
    Except String ι :=
  match input_data with
  | .dict d => InputCls.fromDict d
  | .str s => InputCls.parseJson s
  | .inst i => .ok i
  | .other => .error "Invalid input type"

/-- executor.py lines 171-182: drain the run result uniformly — an
async generator or async iterable is iterated, a plain awaitable is
awaited and yields a single output. -/
def drainRunResult {ω : Type} : RunResult ω → List ω
  | .asyncgen outputs => outputs
  | .aiter outputs => outputs
  | .awaited output => [output]

/-- executor.py lines 146-182, `execute_app_run`: validate the input,
call `app.run`, and yield the normalized outputs. -/
def execute_app_run {σ ι ω μ : Type} (context : AppContext σ ι ω μ) (input_data : InputData ι) :
    Except String (List ω) :=
  match validate_and_parse_input context.AppInput input_data with
  | .error e => .error e
  | .ok input_model =>
    match context.app.runImpl input_model context.metadata with
    | .error e => .error e
    | .ok result => .ok (drainRunResult result)

/-- C2: when the app's `setup` declares two or more parameters,
`setup_app_instance` invokes it with the positional pair
`(coerced setup value, context metadata)`; with fewer parameters it
invokes it with the metadata named argument only; and a succeeding
`load_and_setup_app` always returns a context whose `setup_complete`
flag is true. -/
theorem C2_setup_dispatch {σ ι ω μ : Type} :
    (∀ (context : AppContext σ ι ω μ) (setup_data : SetupData σ) (m : Option σ),
      coerce_setup_data context.AppSetup setup_data = .ok m →
      context.app.setupParamCount ≥ 2 →
      context.app.setupImpl (.positional m context.metadata) = .ok () →
      setup_app_instance context setup_data = .ok (.positional m context.metadata)) ∧
    (∀ (context : AppContext σ ι ω μ) (setup_data : SetupData σ) (m : Option σ),
      coerce_setup_data context.AppSetup setup_data = .ok m →
      context.app.setupParamCount < 2 →
      context.app.setupImpl (.namedMetadataOnly context.metadata) = .ok () →
      setup_app_instance context setup_data = .ok (.namedMetadataOnly context.metadata)) ∧
    (∀ (module : AppModule σ ι ω μ) (metadata : μ) (setup_data : SetupData σ)
      (context' : AppContext σ ι ω μ) (call : SetupCall σ μ),
      load_and_setup_app module metadata setup_data = .ok (context', call) →
      context'.setup_complete = true) := by
  refine ⟨?_, ?_, ?_⟩
  · intro context setup_data m hc hge himpl
    rw [setup_app_instance, hc]
    simp only [if_pos hge, himpl]
  · intro context setup_data m hc hlt himpl
    rw [setup_app_instance, hc]
    simp only [if_neg (by omega : ¬ context.app.setupParamCount ≥ 2), himpl]
  · intro module metadata setup_data context' call h
    rw [load_and_setup_app] at h
    rcases hs : setup_app_instance
        { app := module.mkApp, setup_complete := false, AppInput := module.AppInput,
          AppSetup := module.AppSetup, metadata := metadata } setup_data with e | c
    · rw [hs] at h
      cases h
    · rw [hs] at h
      injection h with h
      injection h with h1 h2
      rw [← h1]

/-- A trivial embedded `AppSetup` class over `Unit`, for concrete
instantiations. -/
def demoSetupCls : SetupClsT Unit :=
  { mkDefault := (), parseJson := fun _ => .ok (), fromDict := fun _ => .ok () }

/-- A trivial embedded `AppInput` class over `Unit`. -/
def demoInputCls : InputClsT Unit :=
  { fromDict := fun _ => .ok (), parseJson := fun _ => .ok (), mkDefault := .ok () }

/-- A demo app whose `setup` declares `n` parameters and whose `run`
returns a single awaited value `7`. -/
def demoApp (n : Nat) : PyApp Unit Unit Nat Unit :=
  { setupParamCount := n, setupImpl := fun _ => .ok (), runImpl := fun _ _ => .ok (.awaited 7) }

/-- A context holding `demoApp n`. -/
def demoContext (n : Nat) : AppContext Unit Unit Nat Unit :=
  { app := demoApp n, setup_complete := false, AppInput := demoInputCls,
    AppSetup := some demoSetupCls, metadata := () }

/-- A demo module exposing `demoApp 2`. -/
def demoModule : AppModule Unit Unit Nat Unit :=
  { mkApp := demoApp 2, AppInput := demoInputCls, AppSetup := some demoSetupCls }

/-- C2 witness: the dispatch theorem applied to concrete apps with a
two-parameter and a one-parameter setup. -/
theorem C2_setup_dispatch_witness :
    setup_app_instance (demoContext 2) SetupData.none = .ok (.positional (some ()) ()) ∧
    setup_app_instance (demoContext 1) SetupData.none = .ok (.namedMetadataOnly ()) ∧
    (load_and_setup_app demoModule () SetupData.none).map (fun p => p.1.setup_complete)
      = .ok true := by
  refine ⟨?_, ?_, ?_⟩
  · exact C2_setup_dispatch.1 (demoContext 2) SetupData.none (some ()) rfl (by decide) rfl
  · exact C2_setup_dispatch.2.1 (demoContext 1) SetupData.none (some ()) rfl (by decide) rfl
  · have h : load_and_setup_app demoModule () SetupData.none
        = .ok ({ app := demoApp 2, setup_complete := true, AppInput := demoInputCls,
                 AppSetup := some demoSetupCls, metadata := () },
               .positional (some ()) ()) := rfl
    have hc := C2_setup_dispatch.2.2 demoModule () SetupData.none _ _ h
    rw [h]
    exact congrArg Except.ok hc

/-- C3: `execute_app_run` normalizes the run result uniformly — an app
whose run returns one awaited value yields exactly that one element,
and an app whose run produces a progressive sequence (async generator
or other async iterable) of n values yields exactly those n values in
order. -/
theorem C3_run_normalization {σ ι ω μ : Type} :
    (∀ (context : AppContext σ ι ω μ) (input_data : InputData ι) (i : ι) (w : ω),
      validate_and_parse_input context.AppInput input_data = .ok i →
      context.app.runImpl i context.metadata = .ok (.awaited w) →
      execute_app_run context input_data = .ok [w]) ∧
    (∀ (context : AppContext σ ι ω μ) (input_data : InputData ι) (i : ι) (ws : List ω),
      validate_and_parse_input context.AppInput input_data = .ok i →
      context.app.runImpl i context.metadata = .ok (.asyncgen ws) →
      execute_app_run context input_data = .ok ws) ∧
    (∀ (context : AppContext σ ι ω μ) (input_data : InputData ι) (i : ι) (ws : List ω),
      validate_and_parse_input context.AppInput input_data = .ok i →
      context.app.runImpl i context.metadata = .ok (.aiter ws) →
      execute_app_run context input_data = .ok ws) := by
  refine ⟨?_, ?_, ?_⟩ <;>
    (intro context input_data i w hv hr
     rw [execute_app_run, hv]
     simp [hr, drainRunResult])

/-- A demo app whose `run` produces an async generator of three
values. -/
def demoGenApp : PyApp Unit Unit Nat Unit :=
  { setupParamCount := 2, setupImpl := fun _ => .ok (),
    runImpl := fun _ _ => .ok (.asyncgen [1, 2, 3]) }

/-- A context holding `demoGenApp`. -/
def demoGenContext : AppContext Unit Unit Nat Unit :=
  { app := demoGenApp, setup_complete := true, AppInput := demoInputCls,
    AppSetup := some demoSetupCls, metadata := () }

/-- C3 witness: the normalization theorem applied to a single-result
app and to a three-value progressive app. -/
theorem C3_run_normalization_witness :
    execute_app_run (demoContext 2) (.inst ()) = .ok [7] ∧
    execute_app_run demoGenContext (.inst ()) = .ok [1, 2, 3] := by
  refine ⟨?_, ?_⟩
  · exact C3_run_normalization.1 (demoContext 2) (.inst ()) () 7 rfl rfl
  · exact C3_run_normalization.2.1 demoGenContext (.inst ()) () [1, 2, 3] rfl rfl

/-- Python `pat in s` on strings, at the character-list level. -/
def containsSub (s pat : List Char) : Bool :=
  match s with
  | [] => pat.isEmpty
  | _ :: cs => pat.isPrefixOf s || containsSub cs pat

/-- Python `s.replace(pat, rep)` at the character-list level:
left-to-right, non-overlapping replacement of every occurrence.  The
empty-pattern guard is never reached by the SDK, which only replaces
the literal `"Error running app: "`. -/
def listReplace (pat rep : List Char) (s : List Char) : List Char :=
  if pat.isEmpty then s
  else
    match s with
    | [] => []
    | c :: cs =>
      if pat.isPrefixOf (c :: cs) then rep ++ listReplace pat rep ((c :: cs).drop pat.length)
      else c :: listReplace pat rep cs
termination_by s.length
decreasing_by
  · rename_i hne _ hpre
    have hlen : pat.length ≠ 0 := by
      intro h0
      exact hne (by simpa [List.isEmpty_iff, List.length_eq_zero] using h0)
    simp only [List.length_drop, List.length_cons]
    omega
  · simp only [List.length_cons]
    omega

/-- Python `s.replace(pat, rep)` on strings. -/
def pyReplace (s pat rep : String) : String :=
  ⟨listReplace pat.data rep.data s.data⟩

/-- executor.py lines 264-269: the message transformation applied by
`run_app`'s exception handler — when `"Error running app: "` occurs in
the caught message, every occurrence of it is replaced by the empty
string. -/
def stripRunAppWrapping (msg : String) : String :=
  if containsSub msg.data "Error running app: ".data then
    pyReplace msg "Error running app: " ""
  else msg

/-- The transformation asserted by the spec, written from the spec's
words: strip exactly one layer of the known wrapping prefix from the
caught error's message. -/
def claimed_strip_one (msg : String) : String :=
  if "Error running app: ".data.isPrefixOf msg.data then
    ⟨msg.data.drop "Error running app: ".data.length⟩
  else msg

/-- executor.py lines 238-263, the body of `run_app` before its
exception handler: build a CLI context from the module, run setup,
default or parse the input, and execute. -/
def run_app_inner {σ ι ω μ : Type} (module : AppModule σ ι ω μ) (setup_data : Option String)
    (input_data : Option String) (metadata : μ) : Except String (List ω) :=
  let context : AppContext σ ι ω μ :=
    { app := module.mkApp, setup_complete := false, AppInput := module.AppInput,
      AppSetup := module.AppSetup, metadata := metadata }
  match setup_app_instance context
      (match setup_data with | none => .none | some s => .str s) with
  | .error e => .error e
  | .ok _ =>
    match (match input_data with
           | none => module.AppInput.mkDefault
           | some s => validate_and_parse_input module.AppInput (.str s)) with
    | .error e => .error e
    | .ok input_model => execute_app_run context (.inst input_model)

/-- executor.py lines 215-269, `run_app`: the CLI convenience function;
any failure of the body is re-raised with the transformed message. -/
def run_app {σ ι ω μ : Type} (module : AppModule σ ι ω μ) (setup_data : Option String)
    (input_data : Option String) (metadata : μ) : Except String (List ω) :=
  match run_app_inner module setup_data input_data metadata with
  | .ok outs => .ok outs
  | .error e => .error (stripRunAppWrapping e)

theorem replace_no_occurrence (pat rep : List Char) (hne : ¬pat.isEmpty = true) :
    ∀ s : List Char, containsSub s pat = false → listReplace pat rep s = s := by
  intro s
  induction s with
  | nil =>
    intro _
    rw [listReplace]
    simp [hne]
  | cons c cs ih =>
    intro hc
    rw [containsSub, Bool.or_eq_false_iff] at hc
    rw [listReplace]
    simp only [hne, if_false, Bool.false_eq_true]
    rw [if_neg (by simp [hc.1]), ih hc.2]

theorem replace_prefix_occurrence (pat rep : List Char) (hne : ¬pat.isEmpty = true)
    (s : List Char) : listReplace pat rep (pat ++ s) = rep ++ listReplace pat rep s := by
  rcases hp : pat with _ | ⟨p, pr⟩
  · subst hp
    simp at hne
  · rw [← hp]
    have hcons : pat ++ s = p :: (pr ++ s) := by rw [hp]; rfl
    rw [hcons, listReplace]
    simp only [hne, if_false, Bool.false_eq_true]
    rw [if_pos (by rw [← hcons, List.isPrefixOf_iff_prefix]; exact List.prefix_append pat s)]
    rw [← hcons, List.drop_left]

theorem contains_pat_append (pat s : List Char) (hne : ¬pat.isEmpty = true) :
    containsSub (pat ++ s) pat = true := by
  rcases hp : pat with _ | ⟨p, pr⟩
  · subst hp
    simp at hne
  · rw [← hp]
    have hcons : pat ++ s = p :: (pr ++ s) := by rw [hp]; rfl
    rw [hcons, containsSub, ← hcons]
    have : pat.isPrefixOf (pat ++ s) = true := by
      rw [List.isPrefixOf_iff_prefix]
      exact List.prefix_append pat s
    rw [this, Bool.true_or]

/-- C7 counterexample: on a doubly wrapped message the code strips
*both* layers (`str.replace` with no count removes every occurrence),
while the claim's exactly-one-layer stripping would leave one layer. -/
theorem C7_counterexample :
    stripRunAppWrapping "Error running app: Error running app: boom" = "boom" ∧
    claimed_strip_one "Error running app: Error running app: boom"
      = "Error running app: boom" ∧
    ("boom" : String) ≠ "Error running app: boom" := by
  refine ⟨?_, by decide, by decide⟩
  have hd : ("Error running app: Error running app: boom" : String).data
      = "Error running app: ".data ++ ("Error running app: ".data ++ "boom".data) := by decide
  have hne : ¬("Error running app: ".data.isEmpty = true) := by decide
  unfold stripRunAppWrapping pyReplace
  rw [hd, if_pos (contains_pat_append _ _ hne)]
  rw [replace_prefix_occurrence _ _ hne, replace_prefix_occurrence _ _ hne,
      replace_no_occurrence _ _ hne _ (by decide)]
  decide

/-- C7 (amended): on failure `run_app` re-raises with the message
transformed by replacing *every* occurrence of the wrapping text
`"Error running app: "` with the empty string — a message without the
wrapping text passes through unchanged, a singly wrapped message is
unwrapped, and a doubly wrapped message collapses to the unwrapped
message (not to one remaining layer). -/
theorem C7_run_app_error_flattening :
    (∀ msg : String, containsSub msg.data "Error running app: ".data = false →
      stripRunAppWrapping msg = msg) ∧
    (∀ base : String, containsSub base.data "Error running app: ".data = false →
      stripRunAppWrapping ("Error running app: " ++ base) = base) ∧
    (∀ base : String, containsSub base.data "Error running app: ".data = false →
      stripRunAppWrapping ("Error running app: " ++ ("Error running app: " ++ base)) = base) ∧
    (∀ (σ ι ω μ : Type) (module : AppModule σ ι ω μ) (setup_data input_data : Option String)
      (metadata : μ) (e : String),
      run_app_inner module setup_data input_data metadata = .error e →
      run_app module setup_data input_data metadata = .error (stripRunAppWrapping e)) := by
  have hne : ¬(("Error running app: " : String).data.isEmpty = true) := by decide
  refine ⟨?_, ?_, ?_, ?_⟩
  · intro msg h
    unfold stripRunAppWrapping
    rw [if_neg (by simp [h])]
  · intro base h
    obtain ⟨l⟩ := base
    unfold stripRunAppWrapping pyReplace
    rw [String.data_append, if_pos (contains_pat_append _ _ hne)]
    rw [replace_prefix_occurrence _ _ hne, replace_no_occurrence _ _ hne _ h]
    rfl
  · intro base h
    obtain ⟨l⟩ := base
    unfold stripRunAppWrapping pyReplace
    rw [String.data_append, String.data_append, if_pos (contains_pat_append _ _ hne)]
    rw [replace_prefix_occurrence _ _ hne, replace_prefix_occurrence _ _ hne,
        replace_no_occurrence _ _ hne _ h]
    rfl
  · intro σ ι ω μ module setup_data input_data metadata e h
    rw [run_app, h]

/-- A demo module whose app raises an already-wrapped error from
setup. -/
def demoFailModule : AppModule Unit Unit Nat Unit :=
  { mkApp := { setupParamCount := 2,
               setupImpl := fun _ => .error "Error running app: kaput",
               runImpl := fun _ _ => .ok (.awaited 7) },
    AppInput := demoInputCls, AppSetup := some demoSetupCls }

/-- C7 witness: the flattening theorem applied to concrete messages and
to a concrete failing `run_app` invocation. -/
theorem C7_run_app_error_flattening_witness :
    stripRunAppWrapping "boom" = "boom" ∧
    stripRunAppWrapping ("Error running app: " ++ "boom") = "boom" ∧
    stripRunAppWrapping ("Error running app: " ++ ("Error running app: " ++ "boom")) = "boom" ∧
    run_app demoFailModule none none ()
      = .error (stripRunAppWrapping "Error running app: kaput") := by
  refine ⟨?_, ?_, ?_, ?_⟩
  · exact C7_run_app_error_flattening.1 "boom" (by decide)
  · exact C7_run_app_error_flattening.2.1 "boom" (by decide)
  · exact C7_run_app_error_flattening.2.2.1 "boom" (by decide)
  · exact C7_run_app_error_flattening.2.2.2 Unit Unit Nat Unit demoFailModule none none () _ rfl

/-- Python `setattr(m, k, v)` on an object's attribute dict: replace
the binding in place, else append a new one. -/
def setAttr (attrs : List (String × JVal)) (k : String) (v : JVal) : List (String × JVal) :=
  match attrs with
  | [] => [(k, v)]
  | (k', v') :: rest => if k' = k then (k, v) :: rest else (k', v') :: setAttr rest k v

/-- metadata.py lines 7-35: a `Metadata` object embedded as its
attribute dict.  The four declared fields are all optional and extra
attributes are allowed (`extra = "allow"`), so the attribute dict is
an arbitrary string-keyed record. -/
abbrev MetadataRec : Type := List (String × JVal)

/-- metadata.py line 30: the source of an update — a plain dict, or a
BaseModel taken through `model_dump()` (which yields all fields,
including those whose value is `None`). -/
inductive MetaSource where
  | dict (d : List (String × JVal))
  | model (dump : List (String × JVal))

/-- metadata.py lines 24-32, `Metadata.update`: `setattr` every
key/value pair of the source onto the record, in source order. -/
def MetadataRec.update (m : MetadataRec) (other : MetaSource) : MetadataRec :=
  let update_dict := match other with | .dict d => d | .model dump => dump
  update_dict.foldl (fun acc kv => setAttr acc kv.1 kv.2) m

theorem jget_setAttr_self (attrs : List (String × JVal)) (k : String) (v : JVal) :
    jget (setAttr attrs k v) k = some v := by
  induction attrs with
  | nil => simp [setAttr, jget]
  | cons p rest ih =>
    obtain ⟨k', v'⟩ := p
    rw [setAttr]
    by_cases hk : k' = k
    · simp [hk, jget]
    · simp [hk, jget, ih]

theorem jget_setAttr_other (attrs : List (String × JVal)) (k k' : String) (v : JVal)
    (hne : k' ≠ k) : jget (setAttr attrs k v) k' = jget attrs k' := by
  have hne' : ¬(k = k') := fun h => hne h.symm
  induction attrs with
  | nil =>
    simp only [setAttr, jget]
    rw [if_neg hne']
  | cons p rest ih =>
    obtain ⟨k0, v0⟩ := p
    rw [setAttr]
    by_cases hk : k0 = k
    · rw [if_pos hk]
      subst hk
      simp only [jget]
      rw [if_neg hne', if_neg hne']
    · rw [if_neg hk]
      simp only [jget]
      rw [ih]

theorem update_foldl_not_mem (src : List (String × JVal)) (acc : List (String × JVal))
    (k : String) (hk : k ∉ src.map Prod.fst) :
    jget (src.foldl (fun acc kv => setAttr acc kv.1 kv.2) acc) k = jget acc k := by
  induction src generalizing acc with
  | nil => rfl
  | cons p rest ih =>
    obtain ⟨k0, v0⟩ := p
    simp only [List.map_cons, List.mem_cons] at hk
    push_neg at hk
    rw [List.foldl_cons, ih _ hk.2, jget_setAttr_other _ _ _ _ hk.1]

/-- C10: `Metadata.update` copies every field present in the source
onto the record, including fields whose value is `None` (so a
previously set field is overwritten with `None` when the source
carries `None`), leaves fields absent from the source untouched, and
behaves identically for dict sources and for model sources taken
through `model_dump()`.  It is total — no input makes it fail. -/
theorem C10_metadata_update :
    (∀ (m : MetadataRec) (src : List (String × JVal)) (k : String) (v : JVal),
      (src.map Prod.fst).Nodup → (k, v) ∈ src →
      jget (m.update (.dict src)) k = some v) ∧
    (∀ (m : MetadataRec) (src : List (String × JVal)) (k : String),
      k ∉ src.map Prod.fst →
      jget (m.update (.dict src)) k = jget m k) ∧
    (∀ (m : MetadataRec) (dump : List (String × JVal)),
      m.update (.model dump) = m.update (.dict dump)) := by
  refine ⟨?_, ?_, fun m dump => rfl⟩
  · intro m src k v hnd hmem
    induction src generalizing m with
    | nil => cases hmem
    | cons p rest ih =>
      obtain ⟨k0, v0⟩ := p
      simp only [List.map_cons, List.nodup_cons] at hnd
      rcases List.mem_cons.mp hmem with heq | hrest
      · injection heq with hk hv
        subst hk
        subst hv
        rw [MetadataRec.update, List.foldl_cons]
        rw [update_foldl_not_mem rest _ k hnd.1, jget_setAttr_self]
      · rw [MetadataRec.update, List.foldl_cons]
        exact ih (setAttr m k0 v0) hnd.2 hrest
  · intro m src k hk
    exact update_foldl_not_mem src m k hk

/-- C10 witness: updating a record whose `app_id` is set from a source
carrying `app_id = None` overwrites it with `None`, and a field absent
from the source is untouched. -/
theorem C10_metadata_update_witness :
    jget (MetadataRec.update
            [("app_id", .str "a1"), ("worker_id", .str "w1")]
            (.dict [("app_id", .null), ("app_variant", .str "big")])) "app_id"
      = some .null ∧
    jget (MetadataRec.update
            [("app_id", .str "a1"), ("worker_id", .str "w1")]
            (.dict [("app_id", .null), ("app_variant", .str "big")])) "worker_id"
      = some (.str "w1") := by
  constructor
  · exact C10_metadata_update.1 _ _ "app_id" .null (by simp) (by simp)
  · have h := C10_metadata_update.2.1
      [("app_id", .str "a1"), ("worker_id", .str "w1")]
      [("app_id", .null), ("app_variant", .str "big")] "worker_id" (by simp)
    rw [h]
    rfl

/-- The relevant part of a generated JSON schema: the properties map
and the optional required list (base.py lines 14-39). -/
structure SchemaDoc where
  properties : List (String × JVal)
  required : Option (List String)

/-- base.py lines 20-30: first pass — for each name of `field_order`
that occurs among the properties, insert that property into an
initially empty ordered dict; second pass — append every property
whose key was not placed, in the schema's original order. -/
def orderProperties (field_order : List String) (props : List (String × JVal)) :
    List (String × JVal) :=
  let firstPass := field_order.foldl
    (fun od f =>
      match jget props f with
      | some v => setAttr od f v
      | none => od) []
  props.foldl
    (fun od kv => if (jget od kv.1).isSome then od else setAttr od kv.1 kv.2)
    firstPass

/-- base.py lines 33-37: required names occurring in `field_order`
first, then the required names the ordering pass could not place. -/
def orderRequired (field_order req : List String) : List String :=
  let ordered := field_order.filter (fun f => req.contains f)
  ordered ++ req.filter (fun f => !ordered.contains f)

/-- base.py lines 12-39, `OrderedSchemaModel.model_json_schema`.  The
recovered field order is a parameter: `_get_field_order` re-parses the
Python class's own source text for top-level annotated assignments,
which has no counterpart inside the embedding.  An empty recovered
order leaves the schema unchanged (line 18). -/
def OrderedSchemaModel.model_json_schema (field_order : List String) (schema : SchemaDoc) :
    SchemaDoc :=
  if field_order.isEmpty then schema
  else
    { properties := orderProperties field_order schema.properties,
      required := schema.required.map (orderRequired field_order) }

theorem jget_append_none {a : List (String × JVal)} (b : List (String × JVal)) {k : String}
    (h : jget a k = none) : jget (a ++ b) k = jget b k := by
  induction a with
  | nil => rfl
  | cons p rest ih =>
    obtain ⟨k0, v0⟩ := p
    rw [jget] at h
    rw [List.cons_append, jget]
    by_cases hk : k0 = k
    · rw [if_pos hk] at h
      cases h
    · rw [if_neg hk] at h ⊢
      exact ih h

theorem jget_append_some {a : List (String × JVal)} (b : List (String × JVal)) {k : String}
    {v : JVal} (h : jget a k = some v) : jget (a ++ b) k = some v := by
  induction a with
  | nil => cases h
  | cons p rest ih =>
    obtain ⟨k0, v0⟩ := p
    rw [jget] at h
    rw [List.cons_append, jget]
    by_cases hk : k0 = k
    · rw [if_pos hk] at h ⊢
      exact h
    · rw [if_neg hk] at h ⊢
      exact ih h

theorem setAttr_fresh {od : List (String × JVal)} {k : String} (v : JVal)
    (h : jget od k = none) : setAttr od k v = od ++ [(k, v)] := by
  induction od with
  | nil => rfl
  | cons p rest ih =>
    obtain ⟨k0, v0⟩ := p
    rw [jget] at h
    by_cases hk : k0 = k
    · rw [if_pos hk] at h
      cases h
    · rw [if_neg hk] at h
      rw [setAttr, if_neg hk, List.cons_append, ih h]

theorem firstPass_eq (props : List (String × JVal)) :
    ∀ (fo : List String) (od : List (String × JVal)), fo.Nodup →
    (∀ f ∈ fo, jget od f = none) →
    fo.foldl
      (fun od f => match jget props f with | some v => setAttr od f v | none => od) od
      = od ++ fo.filterMap (fun f => (jget props f).map (fun v => (f, v))) := by
  intro fo
  induction fo with
  | nil =>
    intro od _ _
    simp
  | cons f rest ih =>
    intro od hnd hfresh
    rw [List.nodup_cons] at hnd
    rw [List.foldl_cons, List.filterMap_cons]
    rcases hf : jget props f with _ | v
    · simp only [hf]
      exact ih od hnd.2 (fun g hg => hfresh g (List.mem_cons_of_mem f hg))
    · simp only [hf, Option.map_some']
      rw [setAttr_fresh v (hfresh f (List.mem_cons_self f rest))]
      rw [ih (od ++ [(f, v)]) hnd.2 ?_]
      · simp
      · intro g hg
        rw [jget_append_none _ (hfresh g (List.mem_cons_of_mem f hg))]
        rw [jget, if_neg ?_]
        · rfl
        · intro heq
          exact hnd.1 (heq ▸ hg)

theorem jget_firstPass (props : List (String × JVal)) (fo : List String) (k : String) :
    jget (fo.filterMap (fun f => (jget props f).map (fun v => (f, v)))) k
      = if k ∈ fo then jget props k else none := by
  induction fo with
  | nil => simp [jget]
  | cons f rest ih =>
    rw [List.filterMap_cons]
    rcases hf : jget props f with _ | v
    · simp only [hf, Option.map_none']
      rw [ih]
      by_cases hk : k = f
      · subst hk
        by_cases hr : k ∈ rest <;> simp [hr, hf]
      · simp [List.mem_cons, hk]
    · simp only [hf, Option.map_some']
      rw [jget]
      by_cases hk : f = k
      · subst hk
        simp [hf]
      · rw [if_neg hk, ih]
        have hmem : (k ∈ f :: rest) ↔ (k ∈ rest) := by
          rw [List.mem_cons]
          exact or_iff_right (fun h => hk h.symm)
        by_cases hr : k ∈ rest <;> simp [hr, hmem]

theorem secondPass_eq :
    ∀ (ps od : List (String × JVal)), (ps.map Prod.fst).Nodup →
    ps.foldl (fun od kv => if (jget od kv.1).isSome then od else setAttr od kv.1 kv.2) od
      = od ++ ps.filter (fun kv => (jget od kv.1).isNone) := by
  intro ps
  induction ps with
  | nil =>
    intro od _
    simp
  | cons p rest ih =>
    intro od hnd
    obtain ⟨k, v⟩ := p
    rw [List.map_cons, List.nodup_cons] at hnd
    rw [List.foldl_cons, List.filter_cons]
    rcases ho : jget od k with _ | w
    · simp only [ho, Option.isSome_none, Bool.false_eq_true, if_false, Option.isNone_none,
                 if_true]
      rw [setAttr_fresh v ho, ih _ hnd.2]
      have hcongr : ∀ kv ∈ rest,
          ((jget (od ++ [(k, v)]) kv.1).isNone) = ((jget od kv.1).isNone) := by
        intro kv hkv
        have hne : kv.1 ≠ k := by
          intro heq
          apply hnd.1
          rw [← heq]
          exact List.mem_map.mpr ⟨kv, hkv, rfl⟩
        rcases hkv1 : jget od kv.1 with _ | w
        · rw [jget_append_none _ hkv1, jget, if_neg (fun h => hne h.symm)]
          rfl
        · rw [jget_append_some _ hkv1]
      rw [List.filter_congr hcongr]
      simp
    · simp only [ho, Option.isSome_some, if_true, Option.isNone_some, Bool.false_eq_true,
                 if_false]
      exact ih od hnd.2

theorem jget_isSome_of_mem (props : List (String × JVal)) (kv : String × JVal)
    (h : kv ∈ props) : (jget props kv.1).isSome = true := by
  induction props with
  | nil => cases h
  | cons p rest ih =>
    obtain ⟨k0, v0⟩ := p
    rw [jget]
    by_cases hk : k0 = kv.1
    · rw [if_pos hk]
      rfl
    · rw [if_neg hk]
      rcases List.mem_cons.mp h with heq | hrest
      · exact absurd (congrArg Prod.fst heq).symm hk
      · exact ih hrest

theorem orderProperties_eq (fo : List String) (props : List (String × JVal))
    (hfo : fo.Nodup) (hp : (props.map Prod.fst).Nodup) :
    orderProperties fo props
      = fo.filterMap (fun f => (jget props f).map (fun v => (f, v)))
        ++ props.filter (fun kv => !fo.contains kv.1) := by
  rw [orderProperties]
  rw [firstPass_eq props fo [] hfo (fun f _ => rfl), List.nil_append]
  rw [secondPass_eq props _ hp]
  congr 1
  apply List.filter_congr
  intro kv hkv
  rw [jget_firstPass]
  by_cases hm : kv.1 ∈ fo
  · rw [if_pos hm]
    have hs := jget_isSome_of_mem props kv hkv
    rcases ho : jget props kv.1 with _ | w
    · rw [ho] at hs
      cases hs
    · simp [hm]
  · rw [if_neg hm]
    simp [hm]

theorem orderRequired_eq (fo req : List String) :
    orderRequired fo req
      = fo.filter (fun f => req.contains f) ++ req.filter (fun f => !fo.contains f) := by
  rw [orderRequired]
  congr 1
  apply List.filter_congr
  intro f hf
  have hc : (fo.filter (fun g => req.contains g)).contains f = fo.contains f := by
    by_cases hm : f ∈ fo
    · have hin : f ∈ fo.filter (fun g => req.contains g) :=
        List.mem_filter.mpr ⟨hm, List.elem_iff.mpr hf⟩
      simp [hin, hm, hf]
    · have hout : f ∉ fo.filter (fun g => req.contains g) :=
        fun hc => hm (List.mem_filter.mp hc).1
      simp [hout, hm]
  rw [hc]

/-- C5: with a non-empty recovered field order, the emitted schema
lists the properties and the required names in the order of
`field_order` (each paired with its original sub-schema), with every
property the ordering pass cannot place appended afterwards in the
schema's original order; in particular declaring fields in order
`b`, `a`, `c` yields properties and required lists in exactly that
order. -/
theorem C5_ordered_schema :
    (∀ (fo : List String) (props : List (String × JVal)) (req : Option (List String)),
      fo ≠ [] → fo.Nodup → (props.map Prod.fst).Nodup →
      (OrderedSchemaModel.model_json_schema fo ⟨props, req⟩).properties
        = fo.filterMap (fun f => (jget props f).map (fun v => (f, v)))
          ++ props.filter (fun kv => !fo.contains kv.1)) ∧
    (∀ (fo : List String) (props : List (String × JVal)) (req : List String),
      fo ≠ [] →
      (OrderedSchemaModel.model_json_schema fo ⟨props, some req⟩).required
        = some (fo.filter (fun f => req.contains f) ++ req.filter (fun f => !fo.contains f))) ∧
    OrderedSchemaModel.model_json_schema ["b", "a", "c"]
        ⟨[("a", .int 1), ("b", .int 2), ("c", .int 3)], some ["a", "b", "c"]⟩
      = ⟨[("b", .int 2), ("a", .int 1), ("c", .int 3)], some ["b", "a", "c"]⟩ := by
  refine ⟨?_, ?_, rfl⟩
  · intro fo props req hne hfo hp
    rw [OrderedSchemaModel.model_json_schema,
        if_neg (by simpa [List.isEmpty_iff] using hne)]
    exact orderProperties_eq fo props hfo hp
  · intro fo props req hne
    rw [OrderedSchemaModel.model_json_schema,
        if_neg (by simpa [List.isEmpty_iff] using hne)]
    simp only [Option.map_some']
    rw [orderRequired_eq]

/-- C5 witness: the ordering theorem applied to a shape with recovered
order `[b, a]` and a property `z` the ordering pass cannot place. -/
theorem C5_ordered_schema_witness :
    (OrderedSchemaModel.model_json_schema ["b", "a"]
        ⟨[("a", .int 1), ("z", .int 9), ("b", .int 2)], some ["a", "z"]⟩).properties
      = [("b", .int 2), ("a", .int 1), ("z", .int 9)] ∧
    (OrderedSchemaModel.model_json_schema ["b", "a"]
        ⟨[("a", .int 1), ("z", .int 9), ("b", .int 2)], some ["a", "z"]⟩).required
      = some ["a", "z"] := by
  constructor
  · have h := C5_ordered_schema.1 ["b", "a"] [("a", .int 1), ("z", .int 9), ("b", .int 2)]
      (some ["a", "z"]) (by simp) (by simp) (by simp)
    rw [h]
    rfl
  · have h := C5_ordered_schema.2.1 ["b", "a"] [("a", .int 1), ("z", .int 9), ("b", .int 2)]
      ["a", "z"] (by simp)
    rw [h]
    rfl

/-- Python truthiness of an optional string attribute: absent (`None`)
and the empty string are falsy. -/
def optStrTruthy : Option String → Bool
  | none => false
  | some s => decide (s ≠ "")

/-- Python truthiness of an optional int attribute: absent and `0` are
falsy. -/
def optIntTruthy : Option Int → Bool
  | none => false
  | some n => decide (n ≠ 0)

/-- The filesystem/network environment a `File` is constructed in:
the working directory, existence/stat/MIME queries, and the effect of
downloading a URL (file.py `_download_url`, abstracted to the
temporary path it produces). -/
structure FsEnv where
  cwd : String
  pathExists : String → Bool
  getsize : String → Int
  guessType : String → Option String
  download : String → Except String String

/-- file.py lines 11-18: the public fields of a `File`. -/
structure File where
  uri : Option String
  path : Option String
  content_type : Option String
  size : Option Int
  filename : Option String

/-- file.py lines 20-28: the accepted shapes of the `File` constructor
argument — a bare string, another `File`, keyword fields, or anything
else (rejected). -/
inductive FileInit where
  | fromStr (s : String)
  | fromFile (f : File)
  | fields (uri path content_type : Option String) (size : Option Int) (filename : Option String)
  | invalid

/-- file.py lines 71-74, `_is_url`: the candidate scheme before the
first colon, lowercased, must be `http` or `https` (`urllib.parse`
lowercases the scheme; a path without a colon has no scheme). -/
def File.is_url (p : String) : Bool :=
  let s := (p.data.takeWhile (fun c => c ≠ ':')).map Char.toLower
  decide (s.length < p.data.length) && (s == "http".data || s == "https".data)

/-- `os.path.isabs`: a POSIX path is absolute when it starts with a
slash. -/
def isAbs (p : String) : Bool :=
  p.data.head? == some '/'

/-- `os.path.abspath`: join a relative path onto the working
directory; absolute paths pass through.  (The dot-segment
normalization `os.path.normpath` also performs is not modelled; none
of the verified inputs contain dot segments or repeated slashes.) -/
def abspath (cwd p : String) : String :=
  if isAbs p then p else cwd ++ "/" ++ p

/-- `os.path.basename`: the component after the last slash. -/
def basename (p : String) : String :=
  ⟨(p.data.reverse.takeWhile (fun c => c ≠ '/')).reverse⟩

/-- file.py lines 134-142, `_populate_metadata`: fill content type,
size and filename from the resolved path, only for fields not already
truthy, and only when the path exists. -/
def File.populateMetadata (env : FsEnv) (f : File) : File :=
  match f.path with
  | none => f
  | some p =>
    if env.pathExists p then
      { f with
        content_type := if optStrTruthy f.content_type then f.content_type else env.guessType p,
        size := if optIntTruthy f.size then f.size else some (env.getsize p),
        filename := if optStrTruthy f.filename then f.filename else some (basename p) }
    else f

/-- file.py lines 46-69, `model_post_init`: resolve a truthy `uri`
(download a URL, else make it absolute into `path`), then make a
truthy `path` absolute and populate metadata; fail if no truthy path
results. -/
def File.model_post_init (env : FsEnv) (f : File) : Except String File :=
  let step1 : Except String File :=
    if optStrTruthy f.uri then
      let u := f.uri.getD ""
      if File.is_url u then
        match env.download u with
        | .ok tmp => .ok { f with path := some tmp }
        | .error e => .error e
      else .ok { f with path := some (abspath env.cwd u) }
    else .ok f
  match step1 with
  | .error e => .error e
  | .ok f1 =>
    if optStrTruthy f1.path then
      .ok (File.populateMetadata env
        { f1 with path := some (abspath env.cwd (f1.path.getD "")) })
    else .error "Either 'uri' or 'path' must be provided and be valid"

/-- file.py lines 39-44, `validate_required_fields`, followed by
`model_post_init`. -/
def File.validate (env : FsEnv) (f : File) : Except String File :=
  if !optStrTruthy f.uri && !optStrTruthy f.path then
    .error "Either 'uri' or 'path' must be provided"
  else File.model_post_init env f

/-- file.py lines 20-44: full construction — `__init__` maps a bare
string to `uri` (as does the before-validator for validation calls)
and copies another `File`'s fields; then the validators and
`model_post_init` run. -/
def File.construct (env : FsEnv) (init : FileInit) : Except String File :=
  match init with
  | .invalid => .error "Invalid input for File"
  | .fromStr s =>
    File.validate env
      { uri := some s, path := none, content_type := none, size := none, filename := none }
  | .fromFile g => File.validate env g
  | .fields u p ct sz fn =>
    File.validate env { uri := u, path := p, content_type := ct, size := sz, filename := fn }

theorem populateMetadata_path (env : FsEnv) (f : File) :
    (File.populateMetadata env f).path = f.path := by
  rcases hp : f.path with _ | p
  · rw [File.populateMetadata, hp]
    exact hp
  · rw [File.populateMetadata, hp]
    by_cases h : env.pathExists p <;> simp [h, hp]

/-- C6: constructing a `File` with neither a (truthy) `uri` nor a
(truthy) `path` fails with the invalid-input error; constructing from
a bare string is the same as supplying that string as `uri`; and
constructing with only the relative, non-URL uri `"report.pdf"` under
an absolute working directory succeeds with an absolute `path` ending
in `report.pdf`. -/
theorem C6_file_construction :
    (∀ (env : FsEnv) (u p ct : Option String) (sz : Option Int) (fn : Option String),
      optStrTruthy u = false → optStrTruthy p = false →
      File.construct env (.fields u p ct sz fn)
        = .error "Either 'uri' or 'path' must be provided") ∧
    (∀ (env : FsEnv) (s : String),
      File.construct env (.fromStr s)
        = File.construct env (.fields (some s) none none none none)) ∧
    (∀ env : FsEnv, isAbs env.cwd = true →
      (File.construct env (.fromStr "report.pdf")).map File.path
        = .ok (some (env.cwd ++ "/" ++ "report.pdf")) ∧
      isAbs (env.cwd ++ "/" ++ "report.pdf") = true ∧
      "report.pdf".data <:+ (env.cwd ++ "/" ++ "report.pdf").data) := by
  refine ⟨?_, ?_, ?_⟩
  · intro env u p ct sz fn hu hp
    rw [File.construct, File.validate]
    rw [if_pos (by simp [hu, hp])]
  · intro env s
    rfl
  · intro env habs
    have hcwd : env.cwd.data ≠ [] := by
      intro h
      rw [isAbs, h] at habs
      cases habs
    have habs2 : isAbs (env.cwd ++ "/" ++ "report.pdf") = true := by
      rw [isAbs, String.data_append, String.data_append]
      rcases hc : env.cwd.data with _ | ⟨c, rest⟩
      · exact absurd hc hcwd
      · rw [isAbs, hc] at habs
        simpa using habs
    refine ⟨?_, habs2, ?_⟩
    · rw [File.construct, File.validate, if_neg (by simp [optStrTruthy])]
      rw [File.model_post_init]
      simp only [optStrTruthy]
      rw [if_pos (by decide)]
      simp only [Option.getD_some]
      rw [if_neg (by decide)]
      rw [abspath, if_neg (by decide)]
      simp only [Option.getD_some]
      rw [if_pos (by simp [optStrTruthy, String.ext_iff, String.data_append])]
      rw [abspath, if_pos habs2]
      rw [Except.map, populateMetadata_path]
    · rw [String.data_append]
      exact List.suffix_append _ _

/-- A concrete filesystem environment for the witnesses: absolute
working directory, nothing exists on disk, downloads fail. -/
def demoFsEnv : FsEnv :=
  { cwd := "/home/user", pathExists := fun _ => false, getsize := fun _ => 0,
    guessType := fun _ => none, download := fun _ => .error "offline" }

/-- C6 witness: the construction theorem applied in a concrete
environment. -/
theorem C6_file_construction_witness :
    File.construct demoFsEnv (.fields none none none none none)
      = .error "Either 'uri' or 'path' must be provided" ∧
    File.construct demoFsEnv (.fromStr "report.pdf")
      = File.construct demoFsEnv (.fields (some "report.pdf") none none none none) ∧
    (File.construct demoFsEnv (.fromStr "report.pdf")).map File.path
      = .ok (some "/home/user/report.pdf") ∧
    isAbs "/home/user/report.pdf" = true ∧
    "report.pdf".data <:+ ("/home/user/report.pdf" : String).data := by
  refine ⟨?_, ?_, ?_, by decide, by decide⟩
  · exact C6_file_construction.1 demoFsEnv none none none none none rfl rfl
  · exact C6_file_construction.2.1 demoFsEnv "report.pdf"
  · have h := (C6_file_construction.2.2 demoFsEnv (by decide)).1
    rw [h]
    rfl

/-- Python `s.startswith(pre)`, at the character level. -/
def pyStartsWith (s pre : String) : Bool := pre.data.isPrefixOf s.data

/-- Python `s.endswith(post)`, at the character level. -/
def pyEndsWith (s post : String) : Bool := post.data.isSuffixOf s.data

/-- The directory environment `setup_app`'s copy loop runs in
(loader.py lines 52-66): the listing of `source_dir`, and the two
distinct directory tests that matter — `os.path.isdir(item)`, which
resolves the bare name against the *process working directory* (what
line 62 actually calls), and whether `source_dir/item` is a
directory (what the copy is meant to test). -/
structure LoaderEnv where
  entries : List String
  isDirCwd : String → Bool
  isDirSrc : String → Bool

/-- loader.py lines 52-66: the entries `setup_app` copies into the
build directory — non-hidden `.py` files, and non-hidden entries that
`os.path.isdir(item)` reports as directories (resolved against the
process working directory) other than `infsh`. -/
def setup_app_copied (env : LoaderEnv) : List String :=
  env.entries.filter (fun item =>
    !pyStartsWith item "." &&
      (pyEndsWith item ".py" ||
        (!pyEndsWith item ".py" && env.isDirCwd item && item != "infsh")))

/-- The copy set asserted by the spec, written from the spec's words:
every top-level source file and every non-hidden subdirectory *of
`source_dir`* (hidden entries and the `infsh` directory excluded),
regardless of the process working directory. -/
def claimed_copied (env : LoaderEnv) : List String :=
  env.entries.filter (fun item =>
    !pyStartsWith item "." &&
      (pyEndsWith item ".py" ||
        (!pyEndsWith item ".py" && env.isDirSrc item && item != "infsh")))

/-- A source directory containing a subdirectory `models` and a file
`inference.py`, while the process working directory contains no entry
named `models`. -/
def buggyLoaderEnv : LoaderEnv :=
  { entries := ["models", "inference.py"],
    isDirCwd := fun _ => false,
    isDirSrc := fun n => n == "models" }

/-- C8: loader.py line 62 tests `os.path.isdir(item)` — the bare entry
name resolved against the process working directory — instead of
`os.path.isdir(src_path)`.  When `source_dir` is not the working
directory, its non-hidden subdirectory `models` is silently not
copied, although the spec (and the function's own docstring, "Copies
all Python files and directories to build") promises it is copied. -/
theorem C8_loader_copy_cwd_bug :
    setup_app_copied buggyLoaderEnv = ["inference.py"] ∧
    claimed_copied buggyLoaderEnv = ["models", "inference.py"] ∧
    buggyLoaderEnv.isDirSrc "models" = true ∧
    (["inference.py"] : List String) ≠ ["models", "inference.py"] := by
  refine ⟨by decide, by decide, by decide, by decide⟩

/-- agent.py lines 81-90: the per-instance chat-session state — the
pinned `_chat_id`, absent until the first message response carries
one. -/
structure AgentState where
  chat_id : Option String

/-- agent.py lines 92-159, `send_message` (chat-id handling): the
request body carries the current `_chat_id` (line 132/143), and after
the response only a falsy `_chat_id` is replaced by a truthy
`assistant_message.chat_id` (lines 151-153).  Returns the id the
request targeted and the successor state. -/
def Agent.send_message (st : AgentState) (respChatId : Option String) :
    Option String × AgentState :=
  let bodyChatId := st.chat_id
  let st' :=
    if !optStrTruthy st.chat_id && optStrTruthy respChatId then
      { st with chat_id := respChatId }
    else st
  (bodyChatId, st')

/-- agent.py lines 161-166, `get_chat`: the explicit argument wins
over the pinned id (`chat_id or self._chat_id`); with no id at all no
request is made (`none`). -/
def Agent.get_chat (st : AgentState) (chat_id : Option String) : Option String :=
  let cid := if optStrTruthy chat_id then chat_id else st.chat_id
  if optStrTruthy cid then cid else none

/-- agent.py lines 173-180, `submit_tool_result`: requires an active
chat, then targets `/chats/{self._chat_id}/tool-result`. -/
def Agent.submit_tool_result (st : AgentState) : Except String String :=
  if !optStrTruthy st.chat_id then .error "No active chat"
  else .ok (st.chat_id.getD "")

/-- agent.py lines 182-208, `stream_messages`: requires an active
chat, then streams `/chats/{self._chat_id}/messages/stream`. -/
def Agent.stream_messages (st : AgentState) : Except String String :=
  if !optStrTruthy st.chat_id then .error "No active chat - send a message first"
  else .ok (st.chat_id.getD "")

/-- agent.py lines 287-289, `reset`. -/
def Agent.reset (_ : AgentState) : AgentState :=
  { chat_id := none }

/-- C9: once the first `send_message` has pinned a (truthy) `chat_id`,
every subsequent operation targets that same id — a later
`send_message` sends it in the body and never replaces it whatever the
response carries, `get_chat` with no argument resolves to it,
`submit_tool_result` and `stream_messages` address it — until `reset`
clears it; and from a fresh state the first `send_message` pins the
id returned by the response. -/
theorem C9_agent_session_pinning :
    (∀ (c : String), c ≠ "" →
      (Agent.send_message ⟨none⟩ (some c)).2 = ⟨some c⟩ ∧
      (∀ respChatId : Option String,
        Agent.send_message ⟨some c⟩ respChatId = (some c, ⟨some c⟩)) ∧
      Agent.get_chat ⟨some c⟩ none = some c ∧
      Agent.submit_tool_result ⟨some c⟩ = .ok c ∧
      Agent.stream_messages ⟨some c⟩ = .ok c ∧
      Agent.reset ⟨some c⟩ = ⟨none⟩) := by
  intro c hc
  have hct : optStrTruthy (some c) = true := by
    simp [optStrTruthy, hc]
  refine ⟨?_, ?_, ?_, ?_, ?_, rfl⟩
  · rw [Agent.send_message]
    simp [optStrTruthy, hc]
  · intro respChatId
    rw [Agent.send_message]
    simp [hct]
  · rw [Agent.get_chat]
    simp [optStrTruthy, hc]
  · rw [Agent.submit_tool_result]
    simp [hct]
  · rw [Agent.stream_messages]
    simp [hct]

/-- C9 witness: the pinning theorem applied to the concrete session id
`chat-1` and a response carrying a different id `chat-2`. -/
theorem C9_agent_session_pinning_witness :
    (Agent.send_message ⟨none⟩ (some "chat-1")).2 = ⟨some "chat-1"⟩ ∧
    Agent.send_message ⟨some "chat-1"⟩ (some "chat-2") = (some "chat-1", ⟨some "chat-1"⟩) ∧
    Agent.get_chat ⟨some "chat-1"⟩ none = some "chat-1" ∧
    Agent.submit_tool_result ⟨some "chat-1"⟩ = .ok "chat-1" ∧
    Agent.stream_messages ⟨some "chat-1"⟩ = .ok "chat-1" ∧
    Agent.reset ⟨some "chat-1"⟩ = ⟨none⟩ := by
  obtain ⟨h1, h2, h3, h4, h5, h6⟩ := C9_agent_session_pinning "chat-1" (by decide)
  exact ⟨h1, h2 (some "chat-2"), h3, h4, h5, h6⟩
